import Mathlib

/-!
Verification of the last.fm API client core: the signing engine
(`LastFmClient._generate_signature`), request preparation
(`LastFmClient._prepare_params`), dispatch error normalization
(`LastFmClient._make_request` / `_handle_response`), and the auth-flow
endpoints (`AuthEndpoints.get_token`, `get_session`, `validate_session`).

The embedding is shallow: Python dicts become association lists with
Python `dict.update` semantics, JSON payloads become a small `JValue`
type, exceptions become `Except`, and the network becomes an explicit
transport function supplied by the caller (a stub).  MD5 is implemented
in full over `Nat` (all words reduced mod 2^32) so that signatures are
computed exactly as `hashlib.md5(...).hexdigest()` does.
-/

namespace LastFm

/-! ## UTF-8 encoding (Python `str.encode('utf-8')`) -/

/-- UTF-8 bytes of a single code point. -/
def charUtf8 (c : Char) : List Nat :=
  let n := c.toNat
  if n < 128 then [n]
  else if n < 2048 then
    [192 + n / 64, 128 + n % 64]
  else if n < 65536 then
    [224 + n / 4096, 128 + n / 64 % 64, 128 + n % 64]
  else
    [240 + n / 262144, 128 + n / 4096 % 64, 128 + n / 64 % 64, 128 + n % 64]

/-- UTF-8 bytes of a string. -/
def utf8Bytes (s : String) : List Nat :=
  s.data.flatMap charUtf8

/-! ## MD5 (RFC 1321), over byte lists, words as `Nat` mod 2^32 -/

/-- The 64 round constants `K[i] = floor(|sin(i+1)| * 2^32)`. -/
def md5K : List Nat :=
  [0xd76aa478, 0xe8c7b756, 0x242070db, 0xc1bdceee,
   0xf57c0faf, 0x4787c62a, 0xa8304613, 0xfd469501,
   0x698098d8, 0x8b44f7af, 0xffff5bb1, 0x895cd7be,
   0x6b901122, 0xfd987193, 0xa679438e, 0x49b40821,
   0xf61e2562, 0xc040b340, 0x265e5a51, 0xe9b6c7aa,
   0xd62f105d, 0x02441453, 0xd8a1e681, 0xe7d3fbc8,
   0x21e1cde6, 0xc33707d6, 0xf4d50d87, 0x455a14ed,
   0xa9e3e905, 0xfcefa3f8, 0x676f02d9, 0x8d2a4c8a,
   0xfffa3942, 0x8771f681, 0x6d9d6122, 0xfde5380c,
   0xa4beea44, 0x4bdecfa9, 0xf6bb4b60, 0xbebfbc70,
   0x289b7ec6, 0xeaa127fa, 0xd4ef3085, 0x04881d05,
   0xd9d4d039, 0xe6db99e5, 0x1fa27cf8, 0xc4ac5665,
   0xf4292244, 0x432aff97, 0xab9423a7, 0xfc93a039,
   0x655b59c3, 0x8f0ccc92, 0xffeff47d, 0x85845dd1,
   0x6fa87e4f, 0xfe2ce6e0, 0xa3014314, 0x4e0811a1,
   0xf7537e82, 0xbd3af235, 0x2ad7d2bb, 0xeb86d391]

/-- Per-round left-rotation amounts. -/
def md5S : List Nat :=
  [7, 12, 17, 22, 7, 12, 17, 22, 7, 12, 17, 22, 7, 12, 17, 22,
   5,  9, 14, 20, 5,  9, 14, 20, 5,  9, 14, 20, 5,  9, 14, 20,
   4, 11, 16, 23, 4, 11, 16, 23, 4, 11, 16, 23, 4, 11, 16, 23,
   6, 10, 15, 21, 6, 10, 15, 21, 6, 10, 15, 21, 6, 10, 15, 21]

/-- 32-bit left rotate (input assumed < 2^32). -/
def rotl32 (x s : Nat) : Nat :=
  ((x <<< s) ||| (x >>> (32 - s))) % 4294967296

/-- Nonlinear round function: F, G, H, I by round index. -/
def md5F (i b c d : Nat) : Nat :=
  if i < 16 then (b &&& c) ||| ((b ^^^ 4294967295) &&& d)
  else if i < 32 then (d &&& b) ||| ((d ^^^ 4294967295) &&& c)
  else if i < 48 then b ^^^ c ^^^ d
  else c ^^^ (b ||| (d ^^^ 4294967295))

/-- Message-word index used in round `i`. -/
def md5G (i : Nat) : Nat :=
  if i < 16 then i
  else if i < 32 then (5 * i + 1) % 16
  else if i < 48 then (3 * i + 5) % 16
  else (7 * i) % 16

/-- Little-endian 32-bit word at position `i` of a 64-byte block. -/
def wordAt (block : List Nat) (i : Nat) : Nat :=
  block.getD (4 * i) 0 + 256 * block.getD (4 * i + 1) 0 +
    65536 * block.getD (4 * i + 2) 0 + 16777216 * block.getD (4 * i + 3) 0

/-- One MD5 round on the rotating state `(a, b, c, d)`. -/
def md5Round (block : List Nat) (st : Nat × Nat × Nat × Nat) (i : Nat) :
    Nat × Nat × Nat × Nat :=
  let (a, b, c, d) := st
  let f := (md5F i b c d + a + md5K.getD i 0 + wordAt block (md5G i)) % 4294967296
  (d, (b + rotl32 f (md5S.getD i 0)) % 4294967296, b, c)

/-- Process one 64-byte block: 64 rounds then add back the incoming state. -/
def md5ProcessBlock (st : Nat × Nat × Nat × Nat) (block : List Nat) :
    Nat × Nat × Nat × Nat :=
  let (a0, b0, c0, d0) := st
  let (a, b, c, d) := (List.range 64).foldl (md5Round block) st
  ((a0 + a) % 4294967296, (b0 + b) % 4294967296,
   (c0 + c) % 4294967296, (d0 + d) % 4294967296)

/-- Process a padded message 64 bytes at a time.  Structural recursion on a
fuel argument (each step consumes at least one byte, so `l.length` steps
always suffice) keeps the definition kernel-reducible. -/
def md5BlocksAux : Nat → (Nat × Nat × Nat × Nat) → List Nat → Nat × Nat × Nat × Nat
  | 0, st, _ => st
  | _ + 1, st, [] => st
  | fuel + 1, st, x :: xs =>
    md5BlocksAux fuel (md5ProcessBlock st ((x :: xs).take 64)) ((x :: xs).drop 64)

def md5Blocks (st : Nat × Nat × Nat × Nat) (l : List Nat) : Nat × Nat × Nat × Nat :=
  md5BlocksAux l.length st l

/-- The eight little-endian bytes of the bit length (mod 2^64). -/
def md5LenBytes (len : Nat) : List Nat :=
  let b := (8 * len) % 18446744073709551616
  [b % 256, b / 256 % 256, b / 65536 % 256, b / 16777216 % 256,
   b / 4294967296 % 256, b / 1099511627776 % 256,
   b / 281474976710656 % 256, b / 72057594037927936 % 256]

/-- MD5 padding: `0x80`, zeros to 56 mod 64, then the 64-bit bit length. -/
def md5Pad (msg : List Nat) : List Nat :=
  msg ++ [128] ++ List.replicate ((119 - msg.length % 64) % 64) 0 ++
    md5LenBytes msg.length

/-- The 16 digest bytes of a byte message. -/
def wordLEBytes (w : Nat) : List Nat :=
  [w % 256, w / 256 % 256, w / 65536 % 256, w / 16777216 % 256]

def md5Bytes (msg : List Nat) : List Nat :=
  let st := md5Blocks (0x67452301, 0xefcdab89, 0x98badcfe, 0x10325476) (md5Pad msg)
  wordLEBytes st.1 ++ wordLEBytes st.2.1 ++ wordLEBytes st.2.2.1 ++
    wordLEBytes st.2.2.2

/-- Lowercase hexadecimal digit character for `n < 16`. -/
def hexDigitChar (n : Nat) : Char :=
  Char.ofNat (if n < 10 then 48 + n else 87 + n)

def byteHex (b : Nat) : List Char :=
  [hexDigitChar (b / 16), hexDigitChar (b % 16)]

/-- `hashlib.md5(msg).hexdigest()` on a byte message. -/
def md5Hex (msg : List Nat) : String :=
  ⟨(md5Bytes msg).flatMap byteHex⟩

/-- `hashlib.md5(s.encode('utf-8')).hexdigest()`. -/
def md5HexOfString (s : String) : String :=
  md5Hex (utf8Bytes s)

end LastFm


namespace LastFm

/-! ## Python dictionaries as association lists

A `Dict[str, str]` is an association list in insertion order with
duplicate-free keys.  `dictSet` is `d[k] = v` / `d.update({k: v})`:
an existing key keeps its position and gets the new value, a new key is
appended. -/

abbrev Params := List (String × String)

def dictSet (d : Params) (k v : String) : Params :=
  if d.any (fun p => p.1 == k) then
    d.map (fun p => if p.1 == k then (k, v) else p)
  else
    d ++ [(k, v)]

/-- `d.get(k)` / `d[k]`. -/
def dictGet (d : Params) (k : String) : Option String :=
  (d.find? (fun p => p.1 == k)).map Prod.snd

def dictKeys (d : Params) : List String :=
  d.map Prod.fst

/-! ## JSON payloads -/

/-- Decoded JSON, as far as the client inspects it. -/
inductive JValue where
  | str : String → JValue
  | num : Int → JValue
  | obj : List (String × JValue) → JValue

abbrev JObject := List (String × JValue)

def jGet (o : JObject) (k : String) : Option JValue :=
  (o.find? (fun p => p.1 == k)).map Prod.snd

def jGetD (o : JObject) (k : String) (d : JValue) : JValue :=
  (jGet o k).getD d

/-- A `.get(k, default)` read as an integer error code.  Last.fm reports
error codes as JSON numbers; a non-numeric value here is outside the
modelled behaviour and reads as the default. -/
def jIntD (v : Option JValue) (d : Int) : Int :=
  match v with
  | some (JValue.num n) => n
  | _ => d

/-- A `.get(k, default)` read as a string; last.fm returns these fields as
JSON strings, a non-string value is outside the modelled behaviour. -/
def jStrD (v : Option JValue) (d : String) : String :=
  match v with
  | some (JValue.str s) => s
  | _ => d

/-- Python `==` between a JSON value and a string literal: string compare
when the value is a string, `False` for any other type. -/
def jEqStr (v : JValue) (s : String) : Bool :=
  match v with
  | JValue.str t => t == s
  | _ => false

/-- `raw_result.get("session", {})` used as a dict; a non-object value
here would crash the Python with `AttributeError`, which no modelled
scenario reaches. -/
def jObjFields : JValue → JObject
  | JValue.obj fs => fs
  | _ => []

/-! ## Exceptions -/

/-- `LastFmApiError` (src/client.py:12-17). -/
structure LastFmApiError where
  error_code : Int
  message : String
deriving DecidableEq, Repr

/-- `str(e)` for a `LastFmApiError`: the string passed to
`super().__init__` in src/client.py:17. -/
def LastFmApiError.toStr (e : LastFmApiError) : String :=
  "Last.fm API Error " ++ toString e.error_code ++ ": " ++ e.message

/-- A Python exception escaping the client: a `ValueError` from the
signing engine or constructor, or a `LastFmApiError`. -/
inductive PyError where
  | valueError : String → PyError
  | apiError : LastFmApiError → PyError
deriving DecidableEq, Repr

/-- Python `str(e)`. -/
def PyError.toStr : PyError → String
  | PyError.valueError m => m
  | PyError.apiError e => e.toStr

/-- Python `needle in hay` on strings. -/
def strContains (hay needle : String) : Bool :=
  decide (needle.data <:+: hay.data)

/-! ## The client (src/client.py) -/

/-- `LastFmClient`: credentials.  `shared_secret` is `Optional[str]`
(`None` models a missing `LASTFM_SHARED_SECRET`). -/
structure LastFmClient where
  api_key : String
  shared_secret : Option String

/-- Python truthiness of `self.shared_secret`: `None` and `""` are falsy.
`if not self.shared_secret` in src/client.py:39 branches on this. -/
def LastFmClient.hasSecret (c : LastFmClient) : Bool :=
  match c.shared_secret with
  | none => false
  | some s => !(s == "")

/-- Code-point comparison of character lists: Python's string `<` is the
lexicographic order on code points. -/
def strLtb : List Char → List Char → Bool
  | [], [] => false
  | [], _ :: _ => true
  | _ :: _, [] => false
  | a :: as, b :: bs =>
    if a.toNat < b.toNat then true
    else if b.toNat < a.toNat then false
    else strLtb as bs

/-- Python `a < b` on strings. -/
def strLt (a b : String) : Prop :=
  strLtb a.data b.data = true

/-- Python `a <= b` on strings. -/
def strLe (a b : String) : Prop :=
  strLt a b ∨ a = b

instance strLt.instDecidableRel : DecidableRel strLt :=
  fun _ _ => inferInstanceAs (Decidable (_ = true))

instance strLe.instDecidableRel : DecidableRel strLe :=
  fun _ _ => inferInstanceAs (Decidable (_ ∨ _))

/-- Python tuple comparison on `(key, value)` string pairs, the order
used by `sorted(params.items())` in src/client.py:43. -/
def pairLe (a b : String × String) : Prop :=
  strLt a.1 b.1 ∨ (a.1 = b.1 ∧ strLe a.2 b.2)

instance pairLe.instDecidableRel : DecidableRel pairLe :=
  fun _ _ => inferInstanceAs (Decidable (_ ∨ _))

/-- `LastFmClient._generate_signature` (src/client.py:34-47): raise
`ValueError` when the shared secret is missing/empty; otherwise sort the
items, concatenate `key ++ value`, append the secret, and MD5-hex the
UTF-8 bytes. -/
def generate_signature (c : LastFmClient) (params : Params) :
    Except String String :=
  if !c.hasSecret then
    Except.error "Shared secret required for signed requests"
  else
    let sorted_params := List.insertionSort pairLe params
    let signature_string :=
      String.join (sorted_params.map (fun p => p.1 ++ p.2)) ++
        c.shared_secret.getD ""
    Except.ok (md5HexOfString signature_string)

/-- `LastFmClient._prepare_params` (src/client.py:49-70): copy `params`,
overwrite `method`, `api_key`, `format`; when `signed`, sign everything
except `format` and store the signature under `api_sig`. -/
def prepare_params (c : LastFmClient) (method : String) (params : Params)
    (signed : Bool) : Except String Params :=
  let request_params :=
    dictSet (dictSet (dictSet params "method" method) "api_key" c.api_key)
      "format" "json"
  if signed then
    let sig_params := request_params.filter (fun p => !(p.1 == "format"))
    match generate_signature c sig_params with
    | Except.error e => Except.error e
    | Except.ok sig => Except.ok (dictSet request_params "api_sig" sig)
  else
    Except.ok request_params

/-- `LastFmClient._handle_response` (src/client.py:72-82). -/
def handle_response (response_data : JObject) :
    Except LastFmApiError JObject :=
  match jGet response_data "error" with
  | some v =>
    Except.error
      ⟨jIntD (some v) 0, jStrD (jGet response_data "message") "Unknown error"⟩
  | none => Except.ok response_data

/-- The observable outcome of the single HTTP attempt inside
`_make_request`: a decoded 2xx JSON body; a non-2xx status
(`httpx.HTTPStatusError` from `raise_for_status`, carrying
`e.response.status_code`); a connection-level failure
(`httpx.RequestError`); or any other failure, e.g. a JSON decode error. -/
inductive HttpOutcome where
  | success : JObject → HttpOutcome
  | statusError : Int → String → HttpOutcome
  | requestError : String → HttpOutcome
  | otherError : String → HttpOutcome

/-- A stub network: maps the prepared request parameters to an outcome.
(The GET/POST distinction in src/client.py:108-111 does not affect the
modelled behaviour.) -/
abbrev Transport := Params → HttpOutcome

/-- `LastFmClient._make_request` (src/client.py:84-123).
`_prepare_params` runs before the `try` block, so a `ValueError` from the
signing engine propagates unwrapped.  Inside the `try`, the
`LastFmApiError` raised by `_handle_response` is itself an `Exception`
and is caught by the final bare `except Exception` clause
(src/client.py:122-123), which re-wraps it with code 0 and
`str(e)` interpolated after "Unexpected error: ". -/
def make_request (c : LastFmClient) (method : String) (params : Params)
    (signed : Bool) (transport : Transport) : Except PyError JObject :=
  match prepare_params c method params signed with
  | Except.error e => Except.error (PyError.valueError e)
  | Except.ok request_params =>
    match transport request_params with
    | HttpOutcome.success response_data =>
      match handle_response response_data with
      | Except.ok d => Except.ok d
      | Except.error e =>
        Except.error
          (PyError.apiError ⟨0, "Unexpected error: " ++ e.toStr⟩)
    | HttpOutcome.statusError code msg =>
      Except.error (PyError.apiError ⟨code, "HTTP error: " ++ msg⟩)
    | HttpOutcome.requestError msg =>
      Except.error (PyError.apiError ⟨0, "Request error: " ++ msg⟩)
    | HttpOutcome.otherError msg =>
      Except.error (PyError.apiError ⟨0, "Unexpected error: " ++ msg⟩)

/-! ## Auth endpoints (src/endpoints/auth.py) -/

/-- Return value of `AuthEndpoints.get_token`. -/
structure TokenResult where
  token : String
  auth_url : String
  instructions : String
deriving DecidableEq, Repr

/-- `AuthEndpoints.get_token` (src/endpoints/auth.py:14-29).  The call to
`_make_request` leaves `signed` at its default `False`.
(`raw_result.get("token", "")` is read as a string; last.fm returns the
token as a JSON string.) -/
def get_token (c : LastFmClient) (transport : Transport) :
    Except PyError TokenResult :=
  match make_request c "auth.getToken" [] false transport with
  | Except.error e => Except.error e
  | Except.ok raw_result =>
    let token := jStrD (jGet raw_result "token") ""
    Except.ok
      { token := token
        auth_url := "http://www.last.fm/api/auth/?api_key=" ++ c.api_key ++
          "&token=" ++ token
        instructions := "Visit the auth_url to authorize the application, then use get_session() with this token" }

/-- Return value of `AuthEndpoints.get_session`. -/
structure SessionResult where
  session_key : String
  username : String
  subscriber : Bool
deriving DecidableEq, Repr

/-- `AuthEndpoints.get_session` (src/endpoints/auth.py:31-75): first try
unsigned; if that raises an exception whose `str` contains "400" and a
shared secret is configured, retry signed; otherwise re-raise.  The outer
`try` only prints debug output and re-raises.  The `print` warnings are
I/O with no modelled effect. -/
def get_session (c : LastFmClient) (token : String) (transport : Transport) :
    Except PyError SessionResult :=
  let params := [("token", token)]
  let raw :=
    match make_request c "auth.getSession" params false transport with
    | Except.ok r => Except.ok r
    | Except.error e =>
      if strContains e.toStr "400" && c.hasSecret then
        make_request c "auth.getSession" params true transport
      else
        Except.error e
  match raw with
  | Except.error e => Except.error e
  | Except.ok raw_result =>
    let session_data := jObjFields (jGetD raw_result "session" (JValue.obj []))
    Except.ok
      { session_key := jStrD (jGet session_data "key") ""
        username := jStrD (jGet session_data "name") ""
        subscriber := jEqStr (jGetD session_data "subscriber" (JValue.str "0")) "1" }

/-- `AuthEndpoints.validate_session` (src/endpoints/auth.py:103-121):
`return True` on success; `except LastFmApiError` returns `False` when
`e.error_code == 9` and re-raises otherwise; any other exception
propagates. -/
def validate_session (c : LastFmClient) (session_key : String)
    (transport : Transport) : Except PyError Bool :=
  match make_request c "user.getInfo" [("sk", session_key)] false transport with
  | Except.ok _ => Except.ok true
  | Except.error (PyError.apiError e) =>
    if e.error_code == 9 then Except.ok false
    else Except.error (PyError.apiError e)
  | Except.error e => Except.error e

end LastFm

namespace LastFm

/-! ## Auxiliary definitions used by the statements -/

/-- Ordering of parameter entries by key only ("sort `params` entries by
key in ascending lexicographic order of the key strings" — the spec's
description of the sort; with duplicate-free keys it selects the same
list as Python's tuple comparison). -/
def keyLe (a b : String × String) : Prop :=
  strLe a.1 b.1

instance keyLe.instDecidableRel : DecidableRel keyLe :=
  fun a b => inferInstanceAs (Decidable (strLe a.1 b.1))

/-- Modelled from the spec: the pre-digest string of `computeSignature` —
entries sorted by key in ascending lexicographic order, each concatenated
as `key` immediately followed by `value`, with the secret appended. -/
def specSignatureString (P : Params) (S : String) : String :=
  String.join ((List.insertionSort keyLe P).map (fun p => p.1 ++ p.2)) ++ S

/-- A lowercase hexadecimal digit: `'0'`-`'9'` or `'a'`-`'f'`. -/
def isLowerHexDigit (c : Char) : Prop :=
  (48 ≤ c.toNat ∧ c.toNat ≤ 57) ∨ (97 ≤ c.toNat ∧ c.toNat ≤ 102)

instance isLowerHexDigit.instDecidable (c : Char) :
    Decidable (isLowerHexDigit c) :=
  inferInstanceAs (Decidable (_ ∨ _))

/-- The `api_sig` entry of a prepared request (`none` when preparation
failed or no signature is present). -/
def apiSigOf (r : Except String Params) : Option String :=
  match r with
  | Except.ok d => dictGet d "api_sig"
  | Except.error _ => none

/-- Re-derive the signature of a prepared mapping from its entries minus
`api_sig` and `format` — the round-trip check described by the spec. -/
def rederiveSig (c : LastFmClient) (r : Except String Params) : Option String :=
  match r with
  | Except.ok d =>
    match generate_signature c
        (d.filter (fun p => !(p.1 == "api_sig") && !(p.1 == "format"))) with
    | Except.ok sig => some sig
    | Except.error _ => none
  | Except.error _ => none

end LastFm

namespace LastFm

/-! ## Helper lemmas: entry orders and sorting -/

theorem strLtb_irrefl : ∀ l : List Char, strLtb l l = false
  | [] => rfl
  | a :: as => by
    unfold strLtb
    rw [if_neg (Nat.lt_irrefl _), if_neg (Nat.lt_irrefl _)]
    exact strLtb_irrefl as

theorem strLtb_trans : ∀ as bs cs : List Char, strLtb as bs = true →
    strLtb bs cs = true → strLtb as cs = true
  | [], [], _, h1, _ => by simp [strLtb] at h1
  | [], _ :: _, [], _, h2 => by simp [strLtb] at h2
  | [], _ :: _, _ :: _, _, _ => rfl
  | _ :: _, [], _, h1, _ => by simp [strLtb] at h1
  | _ :: _, _ :: _, [], _, h2 => by simp [strLtb] at h2
  | a :: as, b :: bs, c :: cs, h1, h2 => by
    unfold strLtb at h1 h2 ⊢
    by_cases hab : a.toNat < b.toNat
    · by_cases hbc : b.toNat < c.toNat
      · rw [if_pos (by omega)]
      · rw [if_neg hbc] at h2
        by_cases hcb : c.toNat < b.toNat
        · rw [if_pos hcb] at h2
          cases h2
        · rw [if_pos (by omega)]
    · rw [if_neg hab] at h1
      by_cases hba : b.toNat < a.toNat
      · rw [if_pos hba] at h1
        cases h1
      · rw [if_neg hba] at h1
        by_cases hbc : b.toNat < c.toNat
        · rw [if_pos (by omega)]
        · rw [if_neg hbc] at h2
          by_cases hcb : c.toNat < b.toNat
          · rw [if_pos hcb] at h2
            cases h2
          · rw [if_neg hcb] at h2
            rw [if_neg (by omega), if_neg (by omega)]
            exact strLtb_trans as bs cs h1 h2

theorem strLtb_eq_of_not_lt : ∀ as bs : List Char, strLtb as bs = false →
    strLtb bs as = false → as = bs
  | [], [], _, _ => rfl
  | [], _ :: _, h1, _ => by simp [strLtb] at h1
  | _ :: _, [], _, h2 => by simp [strLtb] at h2
  | a :: as, b :: bs, h1, h2 => by
    unfold strLtb at h1 h2
    by_cases hab : a.toNat < b.toNat
    · rw [if_pos hab] at h1
      cases h1
    · rw [if_neg hab] at h1
      by_cases hba : b.toNat < a.toNat
      · rw [if_pos hba] at h2
        cases h2
      · rw [if_neg hba] at h1
        rw [if_neg hba, if_neg hab] at h2
        have hnat : a.toNat = b.toNat := by omega
        have hc : a = b := Char.ext (UInt32.toNat.inj hnat)
        rw [hc, strLtb_eq_of_not_lt as bs h1 h2]

theorem strLt_trans {a b c : String} (h1 : strLt a b) (h2 : strLt b c) :
    strLt a c :=
  strLtb_trans a.data b.data c.data h1 h2

theorem strLt_irrefl (a : String) : ¬ strLt a a := by
  intro h
  have h2 : strLtb a.data a.data = true := h
  rw [strLtb_irrefl] at h2
  cases h2

theorem strLt_congr_left {a b c : String} (h : a = b) (h2 : strLt b c) :
    strLt a c := by
  rw [h]
  exact h2

theorem strLt_congr_right {a b c : String} (h1 : strLt a b) (h : b = c) :
    strLt a c := by
  rw [← h]
  exact h1

theorem strLt_or (a b : String) : strLt a b ∨ strLt b a ∨ a = b := by
  cases h1 : strLtb a.data b.data with
  | true => exact Or.inl h1
  | false =>
    cases h2 : strLtb b.data a.data with
    | true => exact Or.inr (Or.inl h2)
    | false =>
      exact Or.inr (Or.inr (String.ext (strLtb_eq_of_not_lt _ _ h1 h2)))

theorem pairLe_total : ∀ a b : String × String, pairLe a b ∨ pairLe b a := by
  intro a b
  rcases strLt_or a.1 b.1 with h | h | h
  · exact Or.inl (Or.inl h)
  · exact Or.inr (Or.inl h)
  · rcases strLt_or a.2 b.2 with h2 | h2 | h2
    · exact Or.inl (Or.inr ⟨h, Or.inl h2⟩)
    · exact Or.inr (Or.inr ⟨h.symm, Or.inl h2⟩)
    · exact Or.inl (Or.inr ⟨h, Or.inr h2⟩)

instance pairLe.instIsTotal : IsTotal (String × String) pairLe :=
  ⟨pairLe_total⟩

instance pairLe.instIsTrans : IsTrans (String × String) pairLe := by
  constructor
  intro a b c hab hbc
  rcases hab with h1 | ⟨h1, h1v⟩ <;> rcases hbc with h2 | ⟨h2, h2v⟩
  · exact Or.inl (strLt_trans h1 h2)
  · exact Or.inl (strLt_congr_right h1 h2)
  · exact Or.inl (strLt_congr_left h1 h2)
  · refine Or.inr ⟨h1.trans h2, ?_⟩
    rcases h1v with hv | hv <;> rcases h2v with hv2 | hv2
    · exact Or.inl (strLt_trans hv hv2)
    · exact Or.inl (strLt_congr_right hv hv2)
    · exact Or.inl (strLt_congr_left hv hv2)
    · exact Or.inr (hv.trans hv2)

instance pairLe.instIsAntisymm : IsAntisymm (String × String) pairLe := by
  constructor
  intro a b hab hba
  rcases hab with h1 | ⟨h1, h1v⟩ <;> rcases hba with h2 | ⟨h2, h2v⟩
  · exact absurd (strLt_trans h1 h2) (strLt_irrefl _)
  · exact absurd (strLt_congr_right h1 h2) (strLt_irrefl _)
  · exact absurd (strLt_congr_right h2 h1) (strLt_irrefl _)
  · refine Prod.ext h1 ?_
    rcases h1v with hv | hv
    · rcases h2v with hv2 | hv2
      · exact absurd (strLt_trans hv hv2) (strLt_irrefl _)
      · exact absurd (strLt_congr_right hv hv2) (strLt_irrefl _)
    · exact hv

instance keyLe.instIsTotal : IsTotal (String × String) keyLe := by
  constructor
  intro a b
  rcases strLt_or a.1 b.1 with h | h | h
  · exact Or.inl (Or.inl h)
  · exact Or.inr (Or.inl h)
  · exact Or.inl (Or.inr h)

instance keyLe.instIsTrans : IsTrans (String × String) keyLe := by
  constructor
  intro a b c h1 h2
  rcases h1 with h1 | h1 <;> rcases h2 with h2 | h2
  · exact Or.inl (strLt_trans h1 h2)
  · exact Or.inl (strLt_congr_right h1 h2)
  · exact Or.inl (strLt_congr_left h1 h2)
  · exact Or.inr (h1.trans h2)

/-- With duplicate-free keys (a genuine mapping), sorting by Python tuple
comparison and sorting by key alone give the same list. -/
theorem insertionSort_pairLe_eq_keyLe (P : Params) (hnd : (dictKeys P).Nodup) :
    List.insertionSort pairLe P = List.insertionSort keyLe P := by
  have hperm : List.Perm (List.insertionSort pairLe P) (List.insertionSort keyLe P) :=
    (List.perm_insertionSort pairLe P).trans
      (List.perm_insertionSort keyLe P).symm
  have h1 : List.Sorted pairLe (List.insertionSort pairLe P) :=
    List.sorted_insertionSort pairLe P
  have hndk : (List.insertionSort keyLe P).Pairwise
      (fun a b : String × String => a.1 ≠ b.1) := by
    have hnd2 : ((List.insertionSort keyLe P).map Prod.fst).Nodup :=
      ((List.perm_insertionSort keyLe P).map Prod.fst).symm.nodup hnd
    exact List.pairwise_map.mp hnd2
  have h2 : List.Sorted pairLe (List.insertionSort keyLe P) :=
    List.Pairwise.imp₂
      (fun a b (hab : keyLe a b) hne => Or.inl (hab.resolve_right hne))
      (List.sorted_insertionSort keyLe P) hndk
  exact List.eq_of_perm_of_sorted hperm h1 h2

/-! ## Helper lemmas: shape of the hex digest -/

theorem length_flatMap_byteHex (l : List Nat) :
    (l.flatMap byteHex).length = 2 * l.length := by
  induction l with
  | nil => rfl
  | cons x xs ih =>
    simp only [List.flatMap_cons, List.length_append, ih, byteHex,
      List.length_cons, List.length_nil]
    omega

theorem md5Bytes_length (msg : List Nat) : (md5Bytes msg).length = 16 := by
  simp [md5Bytes, wordLEBytes]

theorem md5Hex_length (msg : List Nat) : (md5Hex msg).length = 32 := by
  show ((md5Bytes msg).flatMap byteHex).length = 32
  rw [length_flatMap_byteHex, md5Bytes_length]

theorem md5Bytes_lt (msg : List Nat) : ∀ b ∈ md5Bytes msg, b < 256 := by
  intro b hb
  simp only [md5Bytes, wordLEBytes, List.mem_append, List.mem_cons,
    List.not_mem_nil, or_false] at hb
  rcases hb with ((h | h | h | h) | h | h | h | h) | (h | h | h | h) | h | h | h | h <;>
    omega

theorem hexDigitChar_lowerHex : ∀ n, n < 16 → isLowerHexDigit (hexDigitChar n) := by
  decide

theorem md5Hex_chars (msg : List Nat) :
    ∀ ch ∈ (md5Hex msg).data, isLowerHexDigit ch := by
  intro ch hch
  have hch' : ch ∈ (md5Bytes msg).flatMap byteHex := hch
  rcases List.mem_flatMap.mp hch' with ⟨b, hb, hcb⟩
  have hblt := md5Bytes_lt msg b hb
  have hcb' : ch = hexDigitChar (b / 16) ∨ ch = hexDigitChar (b % 16) := by
    simpa [byteHex] using hcb
  rcases hcb' with rfl | rfl
  · exact hexDigitChar_lowerHex _ (by omega)
  · exact hexDigitChar_lowerHex _ (by omega)

end LastFm

namespace LastFm

/-! ## Helper lemmas: dictionary operations -/

theorem find?_map_set_self (k v : String) :
    ∀ d : Params, d.any (fun p => p.1 == k) = true →
      (d.map (fun p => if p.1 == k then (k, v) else p)).find?
        (fun p => p.1 == k) = some (k, v) := by
  intro d h
  induction d with
  | nil => simp at h
  | cons p ps ih =>
    rw [List.map_cons]
    cases hpk : (p.1 == k) with
    | true =>
      rw [if_pos rfl]
      simp [List.find?_cons]
    | false =>
      rw [if_neg (by simp), List.find?_cons]
      simp only [hpk]
      refine ih ?_
      rwa [List.any_cons, hpk, Bool.false_or] at h

theorem find?_nil_of_any_false (q : String × String → Bool) :
    ∀ d : Params, d.any q = false → d.find? q = none := by
  intro d h
  induction d with
  | nil => rfl
  | cons p ps ih =>
    rw [List.any_cons] at h
    rcases Bool.or_eq_false_iff.mp h with ⟨h1, h2⟩
    rw [List.find?_cons]
    simp only [h1]
    exact ih h2

theorem find?_append_single (q : String × String → Bool) (x : String × String) :
    ∀ d : Params, d.find? q = none → (d ++ [x]).find? q = [x].find? q := by
  intro d h
  induction d with
  | nil => rfl
  | cons p ps ih =>
    rw [List.find?_cons] at h
    cases hp : q p with
    | true => simp [hp] at h
    | false =>
      simp only [hp] at h
      rw [List.cons_append, List.find?_cons]
      simp only [hp]
      exact ih h

/-- `d[k] = v` then reading `k` gives `v`. -/
theorem dictGet_dictSet_self (d : Params) (k v : String) :
    dictGet (dictSet d k v) k = some v := by
  unfold dictGet dictSet
  split
  case isTrue h =>
    rw [find?_map_set_self k v d h]
    rfl
  case isFalse h =>
    rw [find?_append_single _ _ d
      (find?_nil_of_any_false _ d (Bool.of_not_eq_true h))]
    simp [List.find?_cons]

/-- `d[k] = v` leaves every other key unchanged. -/
theorem dictGet_dictSet_ne (d : Params) (k v k' : String) (hne : k' ≠ k) :
    dictGet (dictSet d k v) k' = dictGet d k' := by
  have hkk : (k == k') = false :=
    beq_eq_false_iff_ne.mpr (fun h => hne h.symm)
  unfold dictGet dictSet
  split
  case isTrue h =>
    clear h
    induction d with
    | nil => rfl
    | cons p ps ih =>
      rw [List.map_cons]
      cases hpk : (p.1 == k) with
      | true =>
        have hp1 : p.1 = k := beq_iff_eq.mp hpk
        have hpred2 : (p.1 == k') = false := by
          rw [hp1]
          exact hkk
        rw [if_pos rfl, List.find?_cons, List.find?_cons,
          show (((k, v) : String × String).1 == k') = false from hkk, hpred2]
        exact ih
      | false =>
        rw [if_neg (by simp), List.find?_cons, List.find?_cons]
        cases hq : (p.1 == k') with
        | true => rfl
        | false => exact ih
  case isFalse h =>
    clear h
    induction d with
    | nil =>
      rw [List.nil_append, List.find?_cons]
      simp [hkk]
    | cons p ps ih =>
      rw [List.cons_append, List.find?_cons, List.find?_cons]
      cases hq : (p.1 == k') with
      | true => rfl
      | false => exact ih

/-- Every entry of `dictSet d k v` comes from `d` or is `(k, v)`. -/
theorem mem_dictSet (d : Params) (k v : String) :
    ∀ p ∈ dictSet d k v, p ∈ d ∨ p = (k, v) := by
  intro p hp
  unfold dictSet at hp
  split at hp
  case isTrue h =>
    rcases List.mem_map.mp hp with ⟨q, hq, rfl⟩
    cases hqk : (q.1 == k) with
    | true =>
      right
      rw [if_pos rfl]
    | false =>
      left
      rw [if_neg (by simp)]
      exact hq
  case isFalse h =>
    rcases List.mem_append.mp hp with h1 | h1
    · exact Or.inl h1
    · right
      simpa using h1

/-- A `dictSet` at key `k` vanishes under a filter rejecting every
`(k, _)` entry. -/
theorem filter_dictSet_false (pred : String × String → Bool) (d : Params)
    (k v : String) (hp : ∀ w, pred (k, w) = false) :
    (dictSet d k v).filter pred = d.filter pred := by
  unfold dictSet
  split
  case isTrue h =>
    clear h
    induction d with
    | nil => rfl
    | cons p ps ih =>
      rw [List.map_cons, List.filter_cons, List.filter_cons]
      cases hpk : (p.1 == k) with
      | true =>
        have hp1 : p.1 = k := beq_iff_eq.mp hpk
        have hpp : pred p = false := by
          have h2 := hp p.2
          rwa [← hp1, Prod.mk.eta] at h2
        rw [if_pos rfl, if_neg (by simp [hp v]), if_neg (by simp [hpp])]
        exact ih
      | false =>
        rw [if_neg Bool.false_ne_true]
        by_cases hq : pred p = true
        · rw [if_pos hq, if_pos hq, ih]
        · rw [if_neg hq, if_neg hq]
          exact ih
  case isFalse h =>
    rw [List.filter_append, List.filter_cons, if_neg (by simp [hp v])]
    simp

/-- Filtering away a key other than `k` commutes with `dictSet k`. -/
theorem filter_ne_dictSet_comm (d : Params) (k v k' : String) (hne : k ≠ k') :
    (dictSet d k v).filter (fun p => !(p.1 == k')) =
      dictSet (d.filter (fun p => !(p.1 == k'))) k v := by
  have hkk : (k == k') = false := beq_eq_false_iff_ne.mpr hne
  have hany : (d.filter (fun p => !(p.1 == k'))).any (fun p => p.1 == k) =
      d.any (fun p => p.1 == k) := by
    induction d with
    | nil => rfl
    | cons p ps ih =>
      rw [List.filter_cons]
      cases hpk' : (p.1 == k') with
      | true =>
        have hp1 : p.1 = k' := beq_iff_eq.mp hpk'
        have hfalse : (p.1 == k) = false := by
          rw [hp1]
          exact beq_eq_false_iff_ne.mpr (fun h => hne h.symm)
        rw [if_neg (by simp), List.any_cons, hfalse, ih]
        simp
      | false =>
        rw [if_pos (by simp), List.any_cons, List.any_cons, ih]
  unfold dictSet
  rw [hany]
  by_cases hc : d.any (fun p => p.1 == k) = true
  · rw [if_pos hc, if_pos hc]
    clear hc hany
    induction d with
    | nil => rfl
    | cons p ps ih =>
      rw [List.map_cons, List.filter_cons, List.filter_cons]
      by_cases hq : (!(p.1 == k')) = true
      · have hgp : (!((if (p.1 == k) = true then (k, v) else p).1 == k')) = true := by
          by_cases hpk : (p.1 == k) = true
          · rw [if_pos hpk]
            simp [hkk]
          · rw [if_neg hpk]
            exact hq
        rw [if_pos hgp, if_pos hq, List.map_cons, ih]
      · have hq' : (p.1 == k') = true := by
          simpa using hq
        have hp1 : p.1 = k' := beq_iff_eq.mp hq'
        have hpk : ¬(p.1 == k) = true := by
          rw [hp1]
          simp [beq_eq_false_iff_ne.mpr (fun h => hne h.symm)]
        rw [if_neg hpk, if_neg hq, if_neg hq]
        exact ih
  · rw [if_neg hc, if_neg hc]
    rw [List.filter_append, List.filter_cons, if_pos (by simp [hkk])]
    simp

end LastFm

namespace LastFm

/-! ## Claim theorems -/

/-- C4: `computeSignature` is invariant under any permutation of the
order in which the parameter entries are supplied: any two enumerations
of the same key-value pairs yield the identical signature. -/
theorem generate_signature_perm_invariant (c : LastFmClient) (P Q : Params)
    (h : List.Perm P Q) :
    generate_signature c P = generate_signature c Q := by
  have hsort : List.insertionSort pairLe P = List.insertionSort pairLe Q :=
    List.eq_of_perm_of_sorted
      ((List.perm_insertionSort pairLe P).trans
        (h.trans (List.perm_insertionSort pairLe Q).symm))
      (List.sorted_insertionSort pairLe P)
      (List.sorted_insertionSort pairLe Q)
  unfold generate_signature
  rw [hsort]

/-- Witness for C4 at a concrete two-entry permutation. -/
theorem generate_signature_perm_invariant_witness :
    generate_signature ⟨"KEY", some "SECRET"⟩ [("b", "2"), ("a", "1")] =
      generate_signature ⟨"KEY", some "SECRET"⟩ [("a", "1"), ("b", "2")] :=
  generate_signature_perm_invariant _ _ _ (by decide)

/-- C8: computing a signature with an absent (`None`) or empty shared
secret raises a `ValueError` instead of returning a digest, and a
non-empty secret always yields a digest. -/
theorem generate_signature_secret_required (key : String) (sec : Option String)
    (params : Params) :
    ((sec = none ∨ sec = some "") →
      generate_signature ⟨key, sec⟩ params =
        Except.error "Shared secret required for signed requests") ∧
    (∀ s, sec = some s → s ≠ "" →
      ∃ digest, generate_signature ⟨key, sec⟩ params = Except.ok digest) := by
  constructor
  · rintro (rfl | rfl) <;> rfl
  · rintro s rfl hsne
    cases hgen : generate_signature ⟨key, some s⟩ params with
    | error e =>
      simp [generate_signature, LastFmClient.hasSecret, hsne] at hgen
    | ok digest => exact ⟨digest, rfl⟩

/-- Witness for C8: empty secret errors, non-empty secret signs. -/
theorem generate_signature_secret_required_witness :
    generate_signature ⟨"X", some ""⟩ [("a", "b")] =
      Except.error "Shared secret required for signed requests" ∧
    ∃ digest, generate_signature ⟨"X", some "Y"⟩ [("a", "b")] =
      Except.ok digest :=
  ⟨(generate_signature_secret_required "X" (some "") [("a", "b")]).1
      (Or.inr rfl),
   (generate_signature_secret_required "X" (some "Y") [("a", "b")]).2 "Y" rfl
      (by decide)⟩

/-- C2 (code bug): `validate_session` can never observe the remote error
code.  `_handle_response` raises `LastFmApiError(9, ...)` inside the
`try` of `_make_request`, where the bare `except Exception` clause
catches it and re-raises `LastFmApiError(0, "Unexpected error: ...")`.
So a stub reporting error code 9 makes `validate_session` raise a code-0
error instead of returning `False`, and error code 29 is re-raised with
code 0 rather than 29. -/
theorem validate_session_error_codes_wrapped :
    validate_session ⟨"KEY", some "SECRET"⟩ "bad-key"
        (fun _ => HttpOutcome.success
          [("error", JValue.num 9),
           ("message", JValue.str "Invalid session key")]) =
      Except.error (PyError.apiError
        ⟨0, "Unexpected error: Last.fm API Error 9: Invalid session key"⟩) ∧
    validate_session ⟨"KEY", some "SECRET"⟩ "any-key"
        (fun _ => HttpOutcome.success
          [("error", JValue.num 29), ("message", JValue.str "Rate limited")]) =
      Except.error (PyError.apiError
        ⟨0, "Unexpected error: Last.fm API Error 29: Rate limited"⟩) :=
  ⟨rfl, rfl⟩

/-- C6 counterexample: an HTTP status failure (here 404) is mapped to an
`ApiError` carrying the HTTP status code, not the sentinel 0 the claim
requires. -/
theorem make_request_status_error_code_not_zero :
    make_request ⟨"KEY", some "SECRET"⟩ "user.getInfo" [] false
        (fun _ => HttpOutcome.statusError 404 "boom") =
      Except.error (PyError.apiError ⟨404, "HTTP error: boom"⟩) ∧
    (404 : Int) ≠ 0 :=
  ⟨rfl, by decide⟩

/-- C6 amended: whenever preparation succeeds, an HTTP status failure is
mapped to an `ApiError` carrying the underlying status code, while
connection failures and decode/unexpected failures are mapped to the
sentinel code 0; each message wraps the underlying failure description. -/
theorem make_request_transport_error_mapping (c : LastFmClient)
    (method : String) (params : Params) (signed : Bool) (rp : Params)
    (code : Int) (msg : String)
    (hprep : prepare_params c method params signed = Except.ok rp) :
    make_request c method params signed
        (fun _ => HttpOutcome.statusError code msg) =
      Except.error (PyError.apiError ⟨code, "HTTP error: " ++ msg⟩) ∧
    make_request c method params signed
        (fun _ => HttpOutcome.requestError msg) =
      Except.error (PyError.apiError ⟨0, "Request error: " ++ msg⟩) ∧
    make_request c method params signed
        (fun _ => HttpOutcome.otherError msg) =
      Except.error (PyError.apiError ⟨0, "Unexpected error: " ++ msg⟩) := by
  refine ⟨?_, ?_, ?_⟩ <;> simp [make_request, hprep]

/-- Witness for C6 at a concrete unsigned request. -/
theorem make_request_transport_error_mapping_witness :
    prepare_params ⟨"KEY", some "SECRET"⟩ "user.getInfo" [] false =
      Except.ok [("method", "user.getInfo"), ("api_key", "KEY"),
        ("format", "json")] ∧
    make_request ⟨"KEY", some "SECRET"⟩ "user.getInfo" [] false
        (fun _ => HttpOutcome.requestError "conn reset") =
      Except.error (PyError.apiError ⟨0, "Request error: conn reset"⟩) :=
  ⟨rfl,
   (make_request_transport_error_mapping ⟨"KEY", some "SECRET"⟩ "user.getInfo"
      [] false [("method", "user.getInfo"), ("api_key", "KEY"),
        ("format", "json")] 500 "conn reset" rfl).2.1⟩

/-- C7 counterexample: `get_token` does not issue a signed call.  Against
a transport that succeeds exactly when the request carries an `api_sig`
entry, `get_token` fails — the request it dispatched carried no
signature (the `signed` argument of `_make_request` is left at its
default `False`). -/
theorem get_token_issues_unsigned_call :
    get_token ⟨"KEY", some "SECRET"⟩
        (fun rp => if (dictGet rp "api_sig").isSome
          then HttpOutcome.success [("token", JValue.str "abc123")]
          else HttpOutcome.requestError "no signature attached") =
      Except.error (PyError.apiError ⟨0, "Request error: no signature attached"⟩) :=
  rfl

/-- C7 amended: `get_token` issues an *unsigned* call and, on success,
returns the token together with an authorization URL built from the
fixed template with the API key and the returned token embedded. -/
theorem get_token_returns_token_and_url (c : LastFmClient) :
    get_token c (fun _ => HttpOutcome.success [("token", JValue.str "abc123")]) =
      Except.ok
        { token := "abc123"
          auth_url := "http://www.last.fm/api/auth/?api_key=" ++ c.api_key ++
            "&token=" ++ "abc123"
          instructions := "Visit the auth_url to authorize the application, then use get_session() with this token" } ∧
    (∃ pre mid,
      ("http://www.last.fm/api/auth/?api_key=" ++ c.api_key ++
          "&token=" ++ "abc123") = pre ++ c.api_key ++ mid ++ "abc123") :=
  ⟨rfl, ⟨"http://www.last.fm/api/auth/?api_key=", "&token=", rfl⟩⟩

/-- C9: `get_session` extracts `session.key`, `session.name` and the
subscriber flag (`True` exactly when the `subscriber` field is the
string "1") from the response body; in particular the stub
`{session: {key: sk1, name: alice, subscriber: "1"}}` yields
`{session_key := sk1, username := alice, subscriber := true}`. -/
theorem get_session_extracts_session (c : LastFmClient) (token k n s : String) :
    get_session c token (fun _ => HttpOutcome.success
        [("session", JValue.obj
          [("key", JValue.str k), ("name", JValue.str n),
           ("subscriber", JValue.str s)])]) =
      Except.ok ⟨k, n, s == "1"⟩ ∧
    ((s == "1") = true ↔ s = "1") ∧
    get_session ⟨"KEY", some "SECRET"⟩ "abc123"
        (fun _ => HttpOutcome.success
          [("session", JValue.obj
            [("key", JValue.str "sk1"), ("name", JValue.str "alice"),
             ("subscriber", JValue.str "1")])]) =
      Except.ok ⟨"sk1", "alice", true⟩ :=
  ⟨rfl, beq_iff_eq, rfl⟩

end LastFm

namespace LastFm

/-- C1: for a genuine mapping `P` (duplicate-free keys) and a non-empty
secret `S`, `computeSignature(P, S)` is exactly the MD5 hex digest of
the UTF-8 bytes of the spec's construction (entries sorted by key in
ascending lexicographic order, concatenated as `key ++ value`, secret
appended); that digest is a lowercase 32-character hexadecimal string;
and in particular signing `{method: auth.getToken, api_key: X}` with
secret `Y` equals the MD5 hex digest of
"api_keyXmethodauth.getTokenY". -/
theorem generate_signature_matches_spec (key S : String) (P : Params)
    (hS : S ≠ "") (hnd : (dictKeys P).Nodup) :
    generate_signature ⟨key, some S⟩ P =
      Except.ok (md5HexOfString (specSignatureString P S)) ∧
    (md5HexOfString (specSignatureString P S)).length = 32 ∧
    (∀ ch ∈ (md5HexOfString (specSignatureString P S)).data,
      isLowerHexDigit ch) ∧
    generate_signature ⟨"X", some "Y"⟩
        [("method", "auth.getToken"), ("api_key", "X")] =
      Except.ok (md5HexOfString "api_keyXmethodauth.getTokenY") := by
  refine ⟨?_, md5Hex_length _, md5Hex_chars _, ?_⟩
  · have hbeq : (S == "") = false := beq_eq_false_iff_ne.mpr hS
    unfold generate_signature LastFmClient.hasSecret
    simp only [hbeq, Bool.not_false, Bool.not_true, Bool.false_eq_true,
      if_false]
    rw [insertionSort_pairLe_eq_keyLe P hnd]
    rfl
  · rfl

/-- Witness for C1 at the spec's own end-to-end example. -/
theorem generate_signature_matches_spec_witness :
    generate_signature ⟨"X", some "Y"⟩
        [("method", "auth.getToken"), ("api_key", "X")] =
      Except.ok (md5HexOfString
        (specSignatureString [("method", "auth.getToken"), ("api_key", "X")] "Y")) :=
  (generate_signature_matches_spec "X" "Y"
    [("method", "auth.getToken"), ("api_key", "X")] (by decide) (by decide)).1

/-- C3 counterexample: a pre-existing `api_sig` entry is *not* excluded
from the signed payload — adding one changes the computed signature. -/
theorem presig_changes_signature :
    apiSigOf (prepare_params ⟨"KEY", some "SECRET"⟩ "m"
        [("api_sig", "x")] true) ≠
      apiSigOf (prepare_params ⟨"KEY", some "SECRET"⟩ "m" [] true) := by
  decide

/-- C3 amended: the injected `format` field is excluded from the signed
payload — preparing `P` with `format=json` added yields the same
`api_sig` as preparing `P` itself.  (A pre-existing `api_sig` entry, by
contrast, is included in the signed payload.) -/
theorem prepare_params_format_excluded (c : LastFmClient) (method : String)
    (P : Params) :
    apiSigOf (prepare_params c method (dictSet P "format" "json") true) =
      apiSigOf (prepare_params c method P true) := by
  have hL : (dictSet (dictSet (dictSet (dictSet P "format" "json") "method"
        method) "api_key" c.api_key) "format" "json").filter
        (fun p => !(p.1 == "format")) =
      dictSet (dictSet (P.filter (fun p => !(p.1 == "format"))) "method"
        method) "api_key" c.api_key := by
    rw [filter_dictSet_false, filter_ne_dictSet_comm, filter_ne_dictSet_comm,
      filter_dictSet_false]
    all_goals first
      | decide
      | (intro w; simp)
  have hR : (dictSet (dictSet (dictSet P "method" method) "api_key"
        c.api_key) "format" "json").filter (fun p => !(p.1 == "format")) =
      dictSet (dictSet (P.filter (fun p => !(p.1 == "format"))) "method"
        method) "api_key" c.api_key := by
    rw [filter_dictSet_false, filter_ne_dictSet_comm, filter_ne_dictSet_comm]
    all_goals first
      | decide
      | (intro w; simp)
  simp only [prepare_params]
  rw [hL, hR]
  cases hgen : generate_signature c
      (dictSet (dictSet (P.filter (fun p => !(p.1 == "format"))) "method"
        method) "api_key" c.api_key) with
  | error e => rfl
  | ok sig =>
    show dictGet (dictSet (dictSet (dictSet (dictSet (dictSet P "format"
        "json") "method" method) "api_key" c.api_key) "format" "json")
        "api_sig" sig) "api_sig" =
      dictGet (dictSet (dictSet (dictSet (dictSet P "method" method)
        "api_key" c.api_key) "format" "json") "api_sig" sig) "api_sig"
    rw [dictGet_dictSet_self, dictGet_dictSet_self]

end LastFm

namespace LastFm

/-- C5 counterexample: when `P` already contains an `api_sig` entry, the
stored signature is computed over a payload that still includes that old
entry, so re-deriving the signature from the result minus `api_sig` and
`format` does not reproduce the stored value. -/
theorem roundtrip_fails_with_preexisting_sig :
    rederiveSig ⟨"KEY", some "SECRET"⟩
        (prepare_params ⟨"KEY", some "SECRET"⟩ "m" [("api_sig", "x")] true) ≠
      apiSigOf (prepare_params ⟨"KEY", some "SECRET"⟩ "m"
        [("api_sig", "x")] true) := by
  decide

/-- C5 amended: for any mapping `P` without a pre-existing `api_sig` key
and a client with a configured secret, `prepare(method, P, signed=true)`
followed by re-deriving the signature over the resulting mapping minus
`api_sig` and `format` reproduces exactly the stored `api_sig` value. -/
theorem prepare_params_roundtrip (c : LastFmClient) (method : String)
    (P : Params) (hP : "api_sig" ∉ dictKeys P)
    (hsec : c.hasSecret = true) :
    rederiveSig c (prepare_params c method P true) =
      apiSigOf (prepare_params c method P true) ∧
    (apiSigOf (prepare_params c method P true)).isSome = true := by
  have hbase : ∀ p ∈ P, (p.1 == "api_sig") = false := by
    intro p hp
    refine beq_eq_false_iff_ne.mpr (fun h => hP ?_)
    rw [← h]
    exact List.mem_map_of_mem Prod.fst hp
  have step : ∀ (d : Params) (k v : String), (k == "api_sig") = false →
      (∀ p ∈ d, (p.1 == "api_sig") = false) →
      ∀ p ∈ dictSet d k v, (p.1 == "api_sig") = false := by
    intro d k v hk hall p hp
    rcases mem_dictSet d k v p hp with h | rfl
    · exact hall p h
    · exact hk
  have hnosig : ∀ p ∈ dictSet (dictSet (dictSet P "method" method)
      "api_key" c.api_key) "format" "json", (p.1 == "api_sig") = false :=
    step _ _ _ (by decide)
      (step _ _ _ (by decide) (step _ _ _ (by decide) hbase))
  cases hgen : generate_signature c
      ((dictSet (dictSet (dictSet P "method" method) "api_key" c.api_key)
        "format" "json").filter (fun p => !(p.1 == "format"))) with
  | error e =>
    simp [generate_signature, hsec] at hgen
  | ok sig =>
    have hprep : prepare_params c method P true =
        Except.ok (dictSet (dictSet (dictSet (dictSet P "method" method)
          "api_key" c.api_key) "format" "json") "api_sig" sig) := by
      simp only [prepare_params]
      rw [hgen]
      rfl
    rw [hprep]
    have hfil1 : (dictSet (dictSet (dictSet (dictSet P "method" method)
          "api_key" c.api_key) "format" "json") "api_sig" sig).filter
          (fun p => !(p.1 == "api_sig") && !(p.1 == "format")) =
        (dictSet (dictSet (dictSet P "method" method) "api_key" c.api_key)
          "format" "json").filter
          (fun p => !(p.1 == "api_sig") && !(p.1 == "format")) :=
      filter_dictSet_false _ _ _ _ (fun w => by simp)
    have hfil2 : (dictSet (dictSet (dictSet P "method" method) "api_key"
          c.api_key) "format" "json").filter
          (fun p => !(p.1 == "api_sig") && !(p.1 == "format")) =
        (dictSet (dictSet (dictSet P "method" method) "api_key" c.api_key)
          "format" "json").filter (fun p => !(p.1 == "format")) :=
      List.filter_congr (fun p hp => by simp [hnosig p hp])
    constructor
    · simp only [rederiveSig, apiSigOf]
      rw [hfil1, hfil2, hgen, dictGet_dictSet_self]
    · simp only [apiSigOf]
      rw [dictGet_dictSet_self]
      rfl

/-- Witness for C5 at a concrete token-exchange request. -/
theorem prepare_params_roundtrip_witness :
    rederiveSig ⟨"KEY", some "SECRET"⟩
        (prepare_params ⟨"KEY", some "SECRET"⟩ "auth.getSession"
          [("token", "tok1")] true) =
      apiSigOf (prepare_params ⟨"KEY", some "SECRET"⟩ "auth.getSession"
        [("token", "tok1")] true) ∧
    (apiSigOf (prepare_params ⟨"KEY", some "SECRET"⟩ "auth.getSession"
      [("token", "tok1")] true)).isSome = true :=
  prepare_params_roundtrip ⟨"KEY", some "SECRET"⟩ "auth.getSession"
    [("token", "tok1")] (by decide) (by decide)

/-- C10 counterexample: with `signed = true`, a value supplied by `P`
under `api_sig` does not keep its original value in the output — it is
overwritten with the computed signature. -/
theorem prepare_params_overwrites_presig :
    apiSigOf (prepare_params ⟨"KEY", some "SECRET"⟩ "m"
        [("api_sig", "zzz")] true) ≠ some "zzz" := by
  decide

/-- C10 amended: the mapping returned by `prepare` maps `method` to the
supplied method, `api_key` to the client's key and `format` to "json",
overwriting anything `P` supplied under those keys; every other key of
`P` keeps its original value, except that a signed request overwrites
`api_sig` with the computed signature (for `signed = false`, `api_sig`
is preserved like any other key). -/
theorem prepare_params_common_fields (c : LastFmClient) (method : String)
    (P : Params) (signed : Bool) (rp : Params)
    (hprep : prepare_params c method P signed = Except.ok rp) :
    dictGet rp "method" = some method ∧
    dictGet rp "api_key" = some c.api_key ∧
    dictGet rp "format" = some "json" ∧
    (∀ k, k ≠ "method" → k ≠ "api_key" → k ≠ "format" → k ≠ "api_sig" →
      dictGet rp k = dictGet P k) ∧
    (signed = false → dictGet rp "api_sig" = dictGet P "api_sig") := by
  cases signed with
  | false =>
    simp only [prepare_params] at hprep
    rw [if_neg Bool.false_ne_true] at hprep
    injection hprep with hrp
    subst hrp
    refine ⟨?_, ?_, ?_, ?_, ?_⟩
    · rw [dictGet_dictSet_ne _ _ _ _ (by decide),
        dictGet_dictSet_ne _ _ _ _ (by decide), dictGet_dictSet_self]
    · rw [dictGet_dictSet_ne _ _ _ _ (by decide), dictGet_dictSet_self]
    · rw [dictGet_dictSet_self]
    · intro k h1 h2 h3 _
      rw [dictGet_dictSet_ne _ _ _ _ h3, dictGet_dictSet_ne _ _ _ _ h2,
        dictGet_dictSet_ne _ _ _ _ h1]
    · intro _
      rw [dictGet_dictSet_ne _ _ _ _ (by decide),
        dictGet_dictSet_ne _ _ _ _ (by decide),
        dictGet_dictSet_ne _ _ _ _ (by decide)]
  | true =>
    simp only [prepare_params] at hprep
    rw [if_pos (by trivial)] at hprep
    cases hgen : generate_signature c ((dictSet (dictSet (dictSet P "method"
        method) "api_key" c.api_key) "format" "json").filter
        (fun p => !(p.1 == "format"))) with
    | error e =>
      rw [hgen] at hprep
      simp at hprep
    | ok sig =>
      rw [hgen] at hprep
      have hrp : dictSet (dictSet (dictSet (dictSet P "method" method)
          "api_key" c.api_key) "format" "json") "api_sig" sig = rp :=
        Except.ok.inj hprep
      subst hrp
      refine ⟨?_, ?_, ?_, ?_, ?_⟩
      · rw [dictGet_dictSet_ne _ _ _ _ (by decide),
          dictGet_dictSet_ne _ _ _ _ (by decide),
          dictGet_dictSet_ne _ _ _ _ (by decide), dictGet_dictSet_self]
      · rw [dictGet_dictSet_ne _ _ _ _ (by decide),
          dictGet_dictSet_ne _ _ _ _ (by decide), dictGet_dictSet_self]
      · rw [dictGet_dictSet_ne _ _ _ _ (by decide), dictGet_dictSet_self]
      · intro k h1 h2 h3 h4
        rw [dictGet_dictSet_ne _ _ _ _ h4, dictGet_dictSet_ne _ _ _ _ h3,
          dictGet_dictSet_ne _ _ _ _ h2, dictGet_dictSet_ne _ _ _ _ h1]
      · intro h
        exact Bool.noConfusion h

/-- Witness for C10 at a concrete unsigned request. -/
theorem prepare_params_common_fields_witness :
    dictGet [("sk", "s1"), ("method", "user.getInfo"), ("api_key", "KEY"),
        ("format", "json")] "method" = some "user.getInfo" ∧
    dictGet [("sk", "s1"), ("method", "user.getInfo"), ("api_key", "KEY"),
        ("format", "json")] "sk" = dictGet [("sk", "s1")] "sk" :=
  ⟨(prepare_params_common_fields ⟨"KEY", some "SECRET"⟩ "user.getInfo"
      [("sk", "s1")] false _ rfl).1,
   (prepare_params_common_fields ⟨"KEY", some "SECRET"⟩ "user.getInfo"
      [("sk", "s1")] false _ rfl).2.2.2.1 "sk" (by decide) (by decide)
      (by decide) (by decide)⟩

end LastFm
